import Mathlib

/-!
# Verification of the foliation pipeline in `src/S3Triangulation.h`

Shallow embedding of the CDT (Causal Dynamical Triangulations) foliation
construction, repair and classification code.

The geometric engine (CGAL `Delaunay_triangulation_3`) is an external
collaborator: a finite cell (3-simplex) is modelled by the time labels
(`vertex(i)->info()`) of its four vertices together with the value of the
engine's per-cell structural-validity predicate `is_valid()`.  Engine-owned
behaviour (point positions, re-triangulation after `remove`, iteration
order) is abstracted as parameters; everything written in
`S3Triangulation.h` itself is translated directly.

All `output` / verbosity parameters of the C++ code only drive `std::cout`
diagnostics and never influence control flow or results, so they are
omitted.  `unsigned` arithmetic is modelled by `Nat`: the only subtraction
performed is `max_time - min_time` with `max_time ≥ min_time`, which never
wraps.  The whole-triangulation `assert(D3->is_valid())` statements concern
the engine invariant (the engine always presents a valid Delaunay
triangulation) and have no effect on the computed results.
-/

/-- A finite cell of the triangulation: `label i` is
`cit->vertex(i)->info()` (the time slice of vertex `i`) and `valid` is the
engine's structural-validity predicate `cit->is_valid()`. -/
structure Cell where
  label : Fin 4 → Nat
  valid : Bool
  deriving DecidableEq

/-- The four time values pushed into the `timevalues` list in
`classify_3_simplices` (loop `for i in 0..3`). -/
def cellTimevalues (c : Cell) : List Nat :=
  [c.label 0, c.label 1, c.label 2, c.label 3]

/-- The maximum time label over the four vertices of a cell. -/
def maxLabel (c : Cell) : Nat :=
  ((c.label 0).max (c.label 1)).max ((c.label 2).max (c.label 3))

/-- The minimum time label over the four vertices of a cell. -/
def minLabel (c : Cell) : Nat :=
  ((c.label 0).min (c.label 1)).min ((c.label 2).min (c.label 3))

/-! ## `classify_edges` (S3Triangulation.h lines 78-107)

A finite edge is modelled by the pair of its endpoint time values
`(time1, time2) = (ch->vertex(eit->second)->info(),
ch->vertex(eit->third)->info())`.  The function only reads these values
and increments the caller-supplied counters `N1_TL` (timelike) and
`N1_SL` (spacelike); it is a pure traversal of the edge range. -/

/-- `classify_edges(D3, &N1_TL, &N1_SL)`: returns the final values of the
two counters, which are incremented (never reset) edge by edge:
`time1 == time2` increments the spacelike counter, otherwise the timelike
counter. -/
def classify_edges (edges : List (Nat × Nat)) (N1_TL N1_SL : Nat) :
    Nat × Nat :=
  match edges with
  | [] => (N1_TL, N1_SL)
  | e :: rest =>
    if e.1 = e.2 then classify_edges rest N1_TL (N1_SL + 1)
    else classify_edges rest (N1_TL + 1) N1_SL

/-! ## `classify_3_simplices` (lines 120-162) -/

/-- The `timevalues` list after `timevalues.sort()` (ascending). -/
def sortedTimevalues (c : Cell) : List Nat :=
  List.insertionSort (· ≤ ·) (cellTimevalues c)

/-- `max_time = timevalues.back()` after sorting: the last element of the
ascending-sorted list (head of its reverse). -/
def cellMaxTime (c : Cell) : Nat :=
  (sortedTimevalues c).reverse.headD 0

/-- `max_values`: after popping the back element (which contributes the
initial `max_values++`), the while loop pops every remaining element and
increments `max_values` exactly when it equals `max_time`.  (`min_values`
is also tallied by the loop but never used afterwards.) -/
def cellMaxValues (c : Cell) : Nat :=
  1 + (sortedTimevalues c).reverse.tail.count (cellMaxTime c)

/-- The tag written into `cit->info()`: `13`, `22` or `31` by the
`max_values` branch (`== 3`, `== 2`, otherwise). -/
def cellTag (c : Cell) : Nat :=
  if cellMaxValues c = 3 then 13
  else if cellMaxValues c = 2 then 22
  else 31

/-- `classify_3_simplices(D3, &three_one, &two_two, &one_three)`: walks the
finite cells, pushing each cell onto exactly one of the three vectors
according to its `max_values`.  The three accumulators are the vectors'
contents on entry (the function never clears them). -/
def classify_3_simplices (cells : List Cell)
    (three_one two_two one_three : List Cell) :
    List Cell × List Cell × List Cell :=
  match cells with
  | [] => (three_one, two_two, one_three)
  | c :: rest =>
    if cellMaxValues c = 3 then
      classify_3_simplices rest three_one two_two (one_three ++ [c])
    else if cellMaxValues c = 2 then
      classify_3_simplices rest three_one (two_two ++ [c]) one_three
    else
      classify_3_simplices rest (three_one ++ [c]) two_two one_three

/-- `reclassify_3_simplices` (lines 167-177): clears the three vectors and
then classifies. -/
def reclassify_3_simplices (cells : List Cell)
    (_three_one _two_two _one_three : List Cell) :
    List Cell × List Cell × List Cell :=
  classify_3_simplices cells [] [] []

/-! ## `fix_timeslices` (lines 189-223)

The C++ declares `unsigned max_vertex{0}` once, *outside* the loop over
cells, and the per-cell scan only assigns `max_vertex = i` when
`current_time > max_time` fires; `min_time` and `max_time` are
re-initialised to vertex 0's time value for every (structurally valid)
cell, but `max_vertex` is not.  The per-cell scan therefore threads the
incoming `max_vertex` value through. -/

/-- The `for (i = 0; i < 4; i++)` scan of one cell in `fix_timeslices`:
starting from `min_time = max_time = vertex(0)->info()` and the incoming
`max_vertex`, returns the final `(min_time, max_time, max_vertex)`. -/
def scanCell (c : Cell) (max_vertex : Fin 4) : Nat × Nat × Fin 4 :=
  ([0, 1, 2, 3] : List (Fin 4)).foldl
    (fun acc i =>
      let mn := acc.1
      let mx := acc.2.1
      let mv := acc.2.2
      let current := c.label i
      let mn' := if current < mn then current else mn
      let p := if mx < current then (current, i) else (mx, mv)
      (mn', p.1, p.2))
    (c.label 0, c.label 0, max_vertex)

/-- One pass of `fix_timeslices` over the iteration snapshot: returns, in
order, the `D3->remove(cit->vertex(max_vertex))` calls issued, as pairs of
the cell and the removed vertex index.  Structurally invalid cells are
skipped (the empty `else` branch) and do not touch `max_vertex`. -/
def fix_timeslices (cells : List Cell) (max_vertex : Fin 4) :
    List (Cell × Fin 4) :=
  match cells with
  | [] => []
  | c :: rest =>
    if c.valid then
      let s := scanCell c max_vertex
      if s.2.1 - s.1 ≠ 1 then
        (c, s.2.2) :: fix_timeslices rest s.2.2
      else fix_timeslices rest s.2.2
    else fix_timeslices rest max_vertex

/-- A full call of `fix_timeslices`, with `max_vertex` at its `{0}`
initialisation. -/
def fixPass (cells : List Cell) : List (Cell × Fin 4) :=
  fix_timeslices cells 0

/-! ## `check_timeslices` (lines 233-292) -/

/-- The `for (i = 0; i < 4; i++)` min/max scan of one cell in
`check_timeslices` (two independent `if` updates, starting from vertex 0's
time value). -/
def scanMinMax (c : Cell) : Nat × Nat :=
  ([0, 1, 2, 3] : List (Fin 4)).foldl
    (fun acc i =>
      let current := c.label i
      (if current < acc.1 then current else acc.1,
       if acc.2 < current then current else acc.2))
    (c.label 0, c.label 0)

/-- The running `(valid, invalid)` tallies of `check_timeslices`: a
structurally valid cell is foliation-checked (`max_time - min_time != 1`
increments `invalid`, otherwise `valid`); a structurally invalid cell
increments `invalid` unconditionally. -/
def check_timeslices_counts (cells : List Cell) (acc : Nat × Nat) :
    Nat × Nat :=
  match cells with
  | [] => acc
  | c :: rest =>
    if c.valid then
      if (scanMinMax c).2 - (scanMinMax c).1 ≠ 1 then
        check_timeslices_counts rest (acc.1, acc.2 + 1)
      else
        check_timeslices_counts rest (acc.1 + 1, acc.2)
    else
      check_timeslices_counts rest (acc.1, acc.2 + 1)

/-- `check_timeslices(D3, output)`: returns `(invalid == 0) ? true :
false` with both counters starting at `0`. -/
def check_timeslices (cells : List Cell) : Bool :=
  (check_timeslices_counts cells (0, 0)).2 == 0

/-! ## `make_2_sphere` (lines 297-314) and point generation

`CGAL::Random_points_on_sphere_3` draws random positions on the sphere of
the given radius from a process-wide random source; the only
deterministic data of each generated entry are the sphere radius and the
accompanying time value `static_cast<unsigned>(radius)`.  Every radius
used by `make_S3_triangulation` is `1.0 + i` with `i < timeslices`, an
exactly representable integer, so the truncation is the identity and the
radius is modelled as that natural number. -/

/-- One generated point/label entry: the (integer-valued) radius of the
sphere it was sampled on, and its time value. -/
structure PtLabel where
  radius : Nat
  label : Nat
  deriving DecidableEq

/-- `make_2_sphere(&vertices, &timevalue, n, radius, output)`: appends `n`
entries of radius `radius`, each with time value
`static_cast<unsigned>(radius) = radius`. -/
def make_2_sphere (vertices : List PtLabel) (number_of_points : Nat)
    (radius : Nat) : List PtLabel :=
  vertices ++ List.replicate number_of_points
    { radius := radius, label := radius }

/-- The point-generation loop of `make_S3_triangulation` (lines 357-361):
`for i in [0, timeslices)`, `radius = 1.0 + i`, accumulate
`make_2_sphere(..., points, radius, ...)`. -/
def make_points (points timeslices : Nat) : List PtLabel :=
  (List.range timeslices).foldl
    (fun acc i => make_2_sphere acc points (1 + i)) []

/-! ## The repair loop and `make_S3_triangulation` (lines 333-397) -/

/-- `MAX_FOLIATION_FIX_PASSES` (line 342). -/
def MAX_FOLIATION_FIX_PASSES : Nat := 20

/-- The repair loop
`pass = 0; while (!check(s)) { pass++; if (pass > MAX) break; s = fix(s); }`
with `budget = MAX - pass` remaining allowed fix passes.  Returns the
final state together with the number of `fix_timeslices` passes actually
executed.  `check` and `fix` are the engine-level effects of
`check_timeslices` and `fix_timeslices` on the triangulation state. -/
def repair_loop {S : Type} (check : S → Bool) (fixup : S → S) :
    Nat → S → S × Nat
  | budget, s =>
    if check s then (s, 0)
    else
      match budget with
      | 0 => (s, 0)
      | b + 1 =>
        let r := repair_loop check fixup b (fixup s)
        (r.1, r.2 + 1)

/-- The result reported by `make_S3_triangulation`: the final
`check_timeslices` verdict, the number of finite cells, and the three
classification vectors. -/
structure BuildResult where
  finalValid : Bool
  cellCount : Nat
  three_one : List Cell
  two_two : List Cell
  one_three : List Cell
  deriving DecidableEq

/-- `make_S3_triangulation(D3, simplices, timeslices, output, ...)` over
an abstract engine: `insert_into` is the bulk insertion
`insert_into_S3` producing the initial engine state from the generated
point/label collection, `cellsOf` lists the finite cells of a state, and
`fixup` is the engine-level effect of one `fix_timeslices` pass (vertex
removals followed by local re-triangulation).  The failed
`assert(simplices_per_timeslice >= 1)` is the fatal outcome `none`. -/
def make_S3_triangulation {S : Type} (simplices timeslices : Nat)
    (insert_into : List PtLabel → S) (cellsOf : S → List Cell)
    (fixup : S → S) : Option BuildResult :=
  let simplices_per_timeslice := simplices / timeslices
  if simplices_per_timeslice < 1 then none
  else
    let points := simplices_per_timeslice * 4
    let D3 := insert_into (make_points points timeslices)
    let D3f := (repair_loop (fun s => check_timeslices (cellsOf s)) fixup
      MAX_FOLIATION_FIX_PASSES D3).1
    let cls := classify_3_simplices (cellsOf D3f) [] [] []
    some
      { finalValid := check_timeslices (cellsOf D3f)
        cellCount := (cellsOf D3f).length
        three_one := cls.1
        two_two := cls.2.1
        one_three := cls.2.2 }

/-! ## Concrete cells used when evaluating the embedded code -/

/-- A structurally valid cell with time labels `1, 2, 3, 9`: its scan in
`fix_timeslices` ends with `max_vertex = 3`. -/
def cexA : Cell := { label := ![1, 2, 3, 9], valid := true }

/-- A structurally valid cell with time labels `9, 1, 1, 1`: its maximum
is attained only at vertex 0, so the scan never reassigns `max_vertex`. -/
def cexB : Cell := { label := ![9, 1, 1, 1], valid := true }

/-- A cell with three vertices at the maximum label (`max_values = 3`). -/
def wit13 : Cell := { label := ![0, 1, 1, 1], valid := true }

/-- A cell with two vertices at the maximum label (`max_values = 2`). -/
def wit22 : Cell := { label := ![0, 0, 1, 1], valid := true }

/-- A cell with one vertex at the maximum label (`max_values = 1`). -/
def wit31 : Cell := { label := ![0, 0, 0, 1], valid := true }

/-- A cell whose four vertices share one time label (`max_values = 4`). -/
def cellConst : Cell := { label := ![2, 2, 2, 2], valid := true }

/-! ## Helper lemmas -/

lemma maxLabel_mem (c : Cell) : maxLabel c ∈ cellTimevalues c := by
  simp only [maxLabel, Nat.max_def]
  split_ifs <;> simp [cellTimevalues]

lemma le_maxLabel (c : Cell) : ∀ x ∈ cellTimevalues c, x ≤ maxLabel c := by
  intro x hx
  simp only [cellTimevalues, List.mem_cons, List.not_mem_nil, or_false] at hx
  simp only [maxLabel, Nat.max_def]
  rcases hx with h | h | h | h <;> subst h <;> split_ifs <;> omega

lemma minLabel_le (c : Cell) : ∀ x ∈ cellTimevalues c, minLabel c ≤ x := by
  intro x hx
  simp only [cellTimevalues, List.mem_cons, List.not_mem_nil, or_false] at hx
  simp only [minLabel, Nat.min_def]
  rcases hx with h | h | h | h <;> subst h <;> split_ifs <;> omega

lemma sorted_concat_ub (l : List Nat) (hs : l.Sorted (· ≤ ·)) :
    ∀ x ∈ l, x ≤ l.reverse.headD 0 := by
  rcases l.eq_nil_or_concat' with rfl | ⟨l', a, rfl⟩
  · intro x hx; simp at hx
  · intro x hx
    have h := (List.pairwise_append.1 hs).2.2
    simp only [List.reverse_append, List.reverse_cons, List.reverse_nil,
      List.nil_append, List.cons_append, List.headD_cons]
    rcases List.mem_append.mp hx with h1 | h1
    · exact h x h1 a (List.mem_singleton_self a)
    · simp only [List.mem_singleton] at h1; omega

lemma sortedTimevalues_perm (c : Cell) :
    List.Perm (sortedTimevalues c) (cellTimevalues c) :=
  List.perm_insertionSort _ _

lemma sortedTimevalues_sorted (c : Cell) :
    (sortedTimevalues c).Sorted (· ≤ ·) :=
  List.sorted_insertionSort _ _

lemma sortedTimevalues_concat (c : Cell) :
    ∃ l' a, sortedTimevalues c = l' ++ [a] := by
  rcases (sortedTimevalues c).eq_nil_or_concat' with h | ⟨l', a, h⟩
  · exfalso
    have := (sortedTimevalues_perm c).length_eq
    rw [h] at this
    simp [cellTimevalues] at this
  · exact ⟨l', a, h⟩

lemma cellMaxTime_eq (c : Cell) : cellMaxTime c = maxLabel c := by
  obtain ⟨l', a, h⟩ := sortedTimevalues_concat c
  have hhead : cellMaxTime c = a := by
    simp [cellMaxTime, h]
  have hmem : cellMaxTime c ∈ cellTimevalues c := by
    rw [← (sortedTimevalues_perm c).mem_iff, h, hhead]
    simp
  have h1 : cellMaxTime c ≤ maxLabel c := le_maxLabel c _ hmem
  have h2 : maxLabel c ≤ cellMaxTime c := by
    have hm : maxLabel c ∈ sortedTimevalues c :=
      (sortedTimevalues_perm c).mem_iff.mpr (maxLabel_mem c)
    have := sorted_concat_ub _ (sortedTimevalues_sorted c) _ hm
    simpa [cellMaxTime] using this
  omega

lemma cellMaxValues_eq (c : Cell) :
    cellMaxValues c = (cellTimevalues c).count (maxLabel c) := by
  obtain ⟨l', a, h⟩ := sortedTimevalues_concat c
  have hhead : cellMaxTime c = a := by simp [cellMaxTime, h]
  have hcount : (sortedTimevalues c).count (cellMaxTime c)
      = (cellTimevalues c).count (cellMaxTime c) :=
    (sortedTimevalues_perm c).count_eq _
  have htail : (sortedTimevalues c).reverse.tail = l'.reverse := by
    simp [h]
  rw [cellMaxValues, htail, List.count_reverse, ← cellMaxTime_eq,
    ← hcount, h, List.count_append, hhead]
  simp [List.count_singleton]
  omega

lemma scanMinMax_fst (c : Cell) : (scanMinMax c).1 = minLabel c := by
  simp only [scanMinMax, List.foldl_cons, List.foldl_nil, minLabel,
    Nat.min_def]
  split_ifs <;> omega

lemma scanMinMax_snd (c : Cell) : (scanMinMax c).2 = maxLabel c := by
  simp only [scanMinMax, List.foldl_cons, List.foldl_nil, maxLabel,
    Nat.max_def]
  split_ifs <;> omega

lemma classify_eq_filter :
    ∀ (cells three_one two_two one_three : List Cell),
      classify_3_simplices cells three_one two_two one_three =
        (three_one ++ cells.filter
            (fun c => !(cellMaxValues c == 3) && !(cellMaxValues c == 2)),
         two_two ++ cells.filter (fun c => cellMaxValues c == 2),
         one_three ++ cells.filter (fun c => cellMaxValues c == 3)) := by
  intro cells
  induction cells with
  | nil => intro a b d; simp [classify_3_simplices]
  | cons c rest ih =>
    intro a b d
    by_cases h3 : cellMaxValues c = 3
    · simp [classify_3_simplices, h3, ih, List.filter_cons]
    · by_cases h2 : cellMaxValues c = 2
      · simp [classify_3_simplices, h3, h2, ih, List.filter_cons]
      · simp [classify_3_simplices, h3, h2, ih, List.filter_cons]

lemma filter_three_length (cells : List Cell) :
    (cells.filter
        (fun c => !(cellMaxValues c == 3) && !(cellMaxValues c == 2))).length
      + (cells.filter (fun c => cellMaxValues c == 2)).length
      + (cells.filter (fun c => cellMaxValues c == 3)).length
      = cells.length := by
  induction cells with
  | nil => simp
  | cons c rest ih =>
    by_cases h3 : cellMaxValues c = 3
    · simp [List.filter_cons, h3]; omega
    · by_cases h2 : cellMaxValues c = 2
      · simp [List.filter_cons, h3, h2]; omega
      · simp [List.filter_cons, h3, h2]; omega

lemma filter_three_count (cells : List Cell) (x : Cell) :
    (cells.filter
        (fun c => !(cellMaxValues c == 3) && !(cellMaxValues c == 2))).count x
      + (cells.filter (fun c => cellMaxValues c == 2)).count x
      + (cells.filter (fun c => cellMaxValues c == 3)).count x
      = cells.count x := by
  induction cells with
  | nil => simp
  | cons c rest ih =>
    by_cases h3 : cellMaxValues c = 3
    · rcases eq_or_ne c x with rfl | hx
      · simp [List.filter_cons, h3, List.count_cons] at ih ⊢; omega
      · simp [List.filter_cons, h3, List.count_cons, hx] at ih ⊢; omega
    · by_cases h2 : cellMaxValues c = 2
      · rcases eq_or_ne c x with rfl | hx
        · simp [List.filter_cons, h3, h2, List.count_cons] at ih ⊢; omega
        · simp [List.filter_cons, h3, h2, List.count_cons, hx] at ih ⊢
          omega
      · rcases eq_or_ne c x with rfl | hx
        · simp [List.filter_cons, h3, h2, List.count_cons] at ih ⊢; omega
        · simp [List.filter_cons, h3, h2, List.count_cons, hx] at ih ⊢
          omega

/-! ## Claim theorems -/

/-- C2: a classification pass started with the three collections empty
partitions the finite simplices: the sizes of `three_one`, `two_two` and
`one_three` add up to the total finite simplex count, and every simplex
occurrence lands in exactly one of the three collections (the three
per-simplex multiplicities add up to its multiplicity in the cell list,
so there is no overlap and no omission). -/
theorem C2_classification_partition (cells : List Cell) :
    ((classify_3_simplices cells [] [] []).1.length
        + (classify_3_simplices cells [] [] []).2.1.length
        + (classify_3_simplices cells [] [] []).2.2.length
      = cells.length)
    ∧ ∀ x : Cell,
        (classify_3_simplices cells [] [] []).1.count x
          + (classify_3_simplices cells [] [] []).2.1.count x
          + (classify_3_simplices cells [] [] []).2.2.count x
        = cells.count x := by
  rw [classify_eq_filter]
  constructor
  · simpa using filter_three_length cells
  · intro x
    simpa using filter_three_count cells x

/-- C3: for every finite simplex the classifier's `max_values` equals the
number of the 4 vertex time labels equal to the simplex's maximum label,
and the simplex is tagged `13` (type (1,3)) and appended to `one_three`
when `max_values = 3`, tagged `22` (type (2,2)) and appended to `two_two`
when `max_values = 2`, and tagged `31` (type (3,1)) and appended to
`three_one` when `max_values = 1`. -/
theorem C3_simplex_classifier_rule (c : Cell)
    (rest three_one two_two one_three : List Cell) :
    cellMaxValues c = (cellTimevalues c).count (maxLabel c)
    ∧ (cellMaxValues c = 3 → cellTag c = 13 ∧
        classify_3_simplices (c :: rest) three_one two_two one_three =
          classify_3_simplices rest three_one two_two (one_three ++ [c]))
    ∧ (cellMaxValues c = 2 → cellTag c = 22 ∧
        classify_3_simplices (c :: rest) three_one two_two one_three =
          classify_3_simplices rest three_one (two_two ++ [c]) one_three)
    ∧ (cellMaxValues c = 1 → cellTag c = 31 ∧
        classify_3_simplices (c :: rest) three_one two_two one_three =
          classify_3_simplices rest (three_one ++ [c]) two_two one_three)
    := by
  refine ⟨cellMaxValues_eq c, fun h3 => ⟨?_, ?_⟩, fun h2 => ⟨?_, ?_⟩,
    fun h1 => ⟨?_, ?_⟩⟩
  · simp [cellTag, h3]
  · simp [classify_3_simplices, h3]
  · simp [cellTag, h2]
  · simp [classify_3_simplices, h2]
  · simp [cellTag, h1]
  · simp [classify_3_simplices, h1]

/-- Witness for C3: the classifier rule evaluated on one cell of each
`max_values` class. -/
theorem C3_simplex_classifier_rule_witness :
    (cellMaxValues wit13 = 3 ∧ cellTag wit13 = 13 ∧
      classify_3_simplices [wit13] [] [] [] = ([], [], [wit13]))
    ∧ (cellMaxValues wit22 = 2 ∧ cellTag wit22 = 22 ∧
      classify_3_simplices [wit22] [] [] [] = ([], [wit22], []))
    ∧ (cellMaxValues wit31 = 1 ∧ cellTag wit31 = 31 ∧
      classify_3_simplices [wit31] [] [] [] = ([wit31], [], [])) := by
  have h13 := (C3_simplex_classifier_rule wit13 [] [] [] []).2.1 (by decide)
  have h22 := (C3_simplex_classifier_rule wit22 [] [] [] []).2.2.1
    (by decide)
  have h31 := (C3_simplex_classifier_rule wit31 [] [] [] []).2.2.2
    (by decide)
  refine ⟨⟨by decide, h13.1, ?_⟩, ⟨by decide, h22.1, ?_⟩,
    ⟨by decide, h31.1, ?_⟩⟩
  · rw [h13.2]; rfl
  · rw [h22.2]; rfl
  · rw [h31.2]; rfl

/-- C9: any finite simplex whose `max_values` is neither 3 nor 2 falls
into the final branch: it is tagged `31` and appended to `three_one`; in
particular a simplex whose four vertices share one time label has
`max_values = 4` and is appended to `three_one`. -/
theorem C9_default_branch (c : Cell)
    (rest three_one two_two one_three : List Cell) :
    (cellMaxValues c ≠ 3 → cellMaxValues c ≠ 2 →
      cellTag c = 31 ∧
      classify_3_simplices (c :: rest) three_one two_two one_three =
        classify_3_simplices rest (three_one ++ [c]) two_two one_three)
    ∧ ((∀ i : Fin 4, c.label i = c.label 0) →
        cellMaxValues c = 4 ∧ cellTag c = 31 ∧
        classify_3_simplices (c :: rest) three_one two_two one_three =
          classify_3_simplices rest (three_one ++ [c]) two_two one_three)
    := by
  constructor
  · intro h3 h2
    exact ⟨by simp [cellTag, h3, h2], by simp [classify_3_simplices, h3, h2]⟩
  · intro hconst
    have e1 := hconst 1
    have e2 := hconst 2
    have e3 := hconst 3
    have h4 : cellMaxValues c = 4 := by
      have hmax : maxLabel c = c.label 0 := by
        simp [maxLabel, e1, e2, e3]
      rw [cellMaxValues_eq, hmax]
      simp [cellTimevalues, e1, e2, e3, List.count_cons]
    refine ⟨h4, by simp [cellTag, h4], by simp [classify_3_simplices, h4]⟩

/-- Witness for C9: the constant-label cell is tagged `31` and appended
to `three_one` even though no vertex has a strictly smaller label. -/
theorem C9_default_branch_witness :
    cellMaxValues cellConst = 4 ∧ cellTag cellConst = 31 ∧
      classify_3_simplices [cellConst] [] [] [] = ([cellConst], [], []) := by
  have h := (C9_default_branch cellConst [] [] [] []).2 (by decide)
  exact ⟨h.1, h.2.1, by rw [h.2.2]; rfl⟩

/-- C1 (code bug): one `fix_timeslices` pass over the two structurally
valid cells `cexA` (labels 1,2,3,9) and `cexB` (labels 9,1,1,1), both
foliation-invalid, removes vertex 3 of `cexA` (its maximum vertex, which
sets `max_vertex = 3`) and then vertex 3 of `cexB` — even though `cexB`'s
maximum label 9 is attained only at vertex 0 and `cexB.label 3 = 1`:
`max_vertex` is stale because it is declared outside the cell loop and
the scan of `cexB` never reassigns it.  This contradicts the claim and
the function's own documentation ("the vertex with the highest timeslice
is deleted"). -/
theorem C1_fix_timeslices_stale_max_vertex :
    fixPass [cexA, cexB] = [(cexA, 3), (cexB, 3)]
    ∧ cexB.valid = true
    ∧ maxLabel cexB - minLabel cexB ≠ 1
    ∧ cexB.label 3 ≠ maxLabel cexB
    ∧ cexB.label 0 = maxLabel cexB := by decide

lemma check_counts_snd :
    ∀ (cells : List Cell) (v i : Nat),
      (check_timeslices_counts cells (v, i)).2
        = i + cells.countP
            (fun c => !c.valid || ((maxLabel c - minLabel c) != 1)) := by
  intro cells
  induction cells with
  | nil => intro v i; simp [check_timeslices_counts]
  | cons c rest ih =>
    intro v i
    have hmin := scanMinMax_fst c
    have hmax := scanMinMax_snd c
    by_cases hv : c.valid
    · by_cases hspan : maxLabel c - minLabel c = 1
      · have hs : ¬ (scanMinMax c).2 - (scanMinMax c).1 ≠ 1 := by
          rw [hmin, hmax]; omega
        simp [check_timeslices_counts, hv, hs, ih, List.countP_cons, hspan]
      · have hs : (scanMinMax c).2 - (scanMinMax c).1 ≠ 1 := by
          rw [hmin, hmax]; omega
        simp [check_timeslices_counts, hv, hs, ih, List.countP_cons, hspan]
        omega
    · simp [check_timeslices_counts, hv, ih, List.countP_cons]
      omega

/-- C4: `check_timeslices` returns `true` exactly when the number of
invalid finite simplices is zero, a simplex being invalid iff it fails
the engine's structural-validity predicate, or passes it but the spread
between the maximum and minimum time labels of its 4 vertices is not
exactly 1; the function's `invalid` tally equals that count. -/
theorem C4_check_timeslices_iff (cells : List Cell) :
    (check_timeslices cells = true ↔
      cells.countP
          (fun c => !c.valid || ((maxLabel c - minLabel c) != 1)) = 0)
    ∧ (check_timeslices_counts cells (0, 0)).2
        = cells.countP
            (fun c => !c.valid || ((maxLabel c - minLabel c) != 1)) := by
  have h := check_counts_snd cells 0 0
  constructor
  · rw [check_timeslices, h]; simp
  · simpa using h

lemma repair_loop_count_le {S : Type} (check : S → Bool) (fixup : S → S) :
    ∀ (budget : Nat) (s : S),
      (repair_loop check fixup budget s).2 ≤ budget := by
  intro budget
  induction budget with
  | zero =>
    intro s
    rw [repair_loop]
    split <;> simp
  | succ b ih =>
    intro s
    rw [repair_loop]
    by_cases hc : check s
    · simp [hc]
    · have := ih (fixup s)
      simp only [hc, if_false, Bool.false_eq_true]
      omega

/-- C5: the repair loop of `make_S3_triangulation` executes at most
`MAX_FOLIATION_FIX_PASSES = 20` `fix_timeslices` passes for every engine
behaviour, and exhausting the bound is a soft failure: whenever the
configuration check passes, the builder returns a result obtained by
classifying and reporting on the state left by the (bounded) repair loop,
regardless of whether that state is foliation-valid. -/
theorem C5_repair_loop_bound :
    (∀ (S : Type) (check : S → Bool) (fixup : S → S) (s : S),
      (repair_loop check fixup MAX_FOLIATION_FIX_PASSES s).2
        ≤ MAX_FOLIATION_FIX_PASSES)
    ∧ (∀ (S : Type) (simplices timeslices : Nat)
        (insert_into : List PtLabel → S) (cellsOf : S → List Cell)
        (fixup : S → S),
        1 ≤ simplices / timeslices →
        make_S3_triangulation simplices timeslices insert_into cellsOf
            fixup
          = some
            { finalValid :=
                check_timeslices (cellsOf
                  (repair_loop (fun s => check_timeslices (cellsOf s))
                    fixup MAX_FOLIATION_FIX_PASSES
                    (insert_into (make_points
                      (simplices / timeslices * 4) timeslices))).1)
              cellCount :=
                (cellsOf
                  (repair_loop (fun s => check_timeslices (cellsOf s))
                    fixup MAX_FOLIATION_FIX_PASSES
                    (insert_into (make_points
                      (simplices / timeslices * 4) timeslices))).1).length
              three_one :=
                (classify_3_simplices (cellsOf
                  (repair_loop (fun s => check_timeslices (cellsOf s))
                    fixup MAX_FOLIATION_FIX_PASSES
                    (insert_into (make_points
                      (simplices / timeslices * 4) timeslices))).1)
                  [] [] []).1
              two_two :=
                (classify_3_simplices (cellsOf
                  (repair_loop (fun s => check_timeslices (cellsOf s))
                    fixup MAX_FOLIATION_FIX_PASSES
                    (insert_into (make_points
                      (simplices / timeslices * 4) timeslices))).1)
                  [] [] []).2.1
              one_three :=
                (classify_3_simplices (cellsOf
                  (repair_loop (fun s => check_timeslices (cellsOf s))
                    fixup MAX_FOLIATION_FIX_PASSES
                    (insert_into (make_points
                      (simplices / timeslices * 4) timeslices))).1)
                  [] [] []).2.2 }) := by
  constructor
  · intro S check fixup s
    exact repair_loop_count_le check fixup MAX_FOLIATION_FIX_PASSES s
  · intro S simplices timeslices insert_into cellsOf fixup h
    unfold make_S3_triangulation
    rw [if_neg (by omega)]

/-- Witness for C5 at a concrete engine (`S = Unit`, no cells) and the
configuration `simplices = 2`, `timeslices = 2`. -/
theorem C5_repair_loop_bound_witness :
    ((repair_loop (fun _ : Unit => false) id MAX_FOLIATION_FIX_PASSES
        ()).2 ≤ MAX_FOLIATION_FIX_PASSES)
    ∧ (make_S3_triangulation 2 2 (fun _ : List PtLabel => ())
        (fun _ : Unit => ([] : List Cell)) id).isSome = true := by
  constructor
  · exact C5_repair_loop_bound.1 Unit (fun _ => false) id ()
  · rw [C5_repair_loop_bound.2 Unit 2 2 (fun _ => ())
      (fun _ => ([] : List Cell)) id (by decide)]
    rfl

/-- C6: `make_S3_triangulation` fails fatally (the failed
`assert(simplices_per_timeslice >= 1)`) exactly when the integer division
`simplices / timeslices` is zero, whatever the engine does; in
particular `simplices = 2`, `timeslices = 4` is rejected. -/
theorem C6_fatal_configuration :
    (∀ (S : Type) (simplices timeslices : Nat)
        (insert_into : List PtLabel → S) (cellsOf : S → List Cell)
        (fixup : S → S),
      make_S3_triangulation simplices timeslices insert_into cellsOf fixup
          = none
        ↔ simplices / timeslices = 0)
    ∧ make_S3_triangulation 2 4 (fun _ : List PtLabel => ())
        (fun _ : Unit => ([] : List Cell)) id = none := by
  constructor
  · intro S simplices timeslices insert_into cellsOf fixup
    constructor
    · intro h
      by_contra hne
      have hge : ¬ simplices / timeslices < 1 := by
        rw [Nat.lt_one_iff]; exact hne
      unfold make_S3_triangulation at h
      rw [if_neg hge] at h
      exact Option.noConfusion h
    · intro h
      have hlt : simplices / timeslices < 1 := Nat.lt_one_iff.mpr h
      unfold make_S3_triangulation
      rw [if_pos hlt]
  · rfl

lemma classify_edges_spec :
    ∀ (edges : List (Nat × Nat)) (a b : Nat),
      classify_edges edges a b
        = (a + edges.countP (fun e => !(e.1 == e.2)),
           b + edges.countP (fun e => e.1 == e.2)) := by
  intro edges
  induction edges with
  | nil => intro a b; simp [classify_edges]
  | cons e rest ih =>
    intro a b
    by_cases h : e.1 = e.2
    · simp [classify_edges, h, ih, List.countP_cons, Prod.ext_iff]
      omega
    · simp [classify_edges, h, ih, List.countP_cons, Prod.ext_iff]
      omega

lemma countP_edge_split (edges : List (Nat × Nat)) :
    edges.countP (fun e => !(e.1 == e.2))
      + edges.countP (fun e => e.1 == e.2) = edges.length := by
  induction edges with
  | nil => simp
  | cons e rest ih =>
    by_cases h : e.1 = e.2 <;> simp [List.countP_cons, h] <;> omega

/-- C7 counterexample: with counters starting at `N1_TL = N1_SL = 1`, a
single spacelike edge yields final tallies summing to 3, not the edge
count 1 — the claim's tally-completeness equation fails when the
caller-supplied counters are not zero. -/
theorem C7_nonzero_counters_cex :
    ¬ ((classify_edges [((0 : Nat), (0 : Nat))] 1 1).1
        + (classify_edges [((0 : Nat), (0 : Nat))] 1 1).2
      = ([((0 : Nat), (0 : Nat))] : List (Nat × Nat)).length) := by decide

/-- C7 (amended): `classify_edges` counts an edge as spacelike iff its
endpoint time values are equal and timelike otherwise, adding the tallies
on top of the incoming counter values (the embedding is a pure function
of the edge list: the triangulation is never mutated); the
tally-completeness equation `timelike + spacelike = total finite edge
count` holds for a call whose two counters start at zero. -/
theorem C7_edge_classifier (edges : List (Nat × Nat)) (a b : Nat) :
    classify_edges edges a b
        = (a + edges.countP (fun e => !(e.1 == e.2)),
           b + edges.countP (fun e => e.1 == e.2))
    ∧ (classify_edges edges 0 0).1 + (classify_edges edges 0 0).2
        = edges.length := by
  refine ⟨classify_edges_spec edges a b, ?_⟩
  rw [classify_edges_spec]
  simpa using countP_edge_split edges

/-- C10: `classify_edges` never resets the caller-supplied counters: the
final values equal the initial values plus the number of finite edges
with unequal (timelike) and equal (spacelike) endpoint time values
respectively, so the tally-completeness equation holds exactly when both
counters are zero on entry. -/
theorem C10_counters_accumulate (edges : List (Nat × Nat)) (a b : Nat) :
    ((classify_edges edges a b).1
        = a + edges.countP (fun e => !(e.1 == e.2)))
    ∧ ((classify_edges edges a b).2
        = b + edges.countP (fun e => e.1 == e.2))
    ∧ ((classify_edges edges a b).1 + (classify_edges edges a b).2
          = edges.length
        ↔ a = 0 ∧ b = 0) := by
  have h := classify_edges_spec edges a b
  have hs := countP_edge_split edges
  rw [h]
  refine ⟨rfl, rfl, ?_⟩
  simp only []
  omega

lemma make_points_succ (points m : Nat) :
    make_points points (m + 1)
      = make_points points m
          ++ List.replicate points (⟨1 + m, 1 + m⟩ : PtLabel) := by
  rw [make_points, List.range_succ, List.foldl_append]
  rfl

lemma make_points_eq (points : Nat) :
    ∀ timeslices : Nat,
      make_points points timeslices
        = ((List.range timeslices).map
            (fun i => List.replicate points
              (⟨1 + i, 1 + i⟩ : PtLabel))).flatten := by
  intro timeslices
  induction timeslices with
  | zero => rfl
  | succ m ih =>
    rw [make_points_succ, ih, List.range_succ]
    simp

lemma make_points_length (points : Nat) :
    ∀ timeslices : Nat,
      (make_points points timeslices).length = points * timeslices := by
  intro timeslices
  induction timeslices with
  | zero => rfl
  | succ m ih =>
    rw [make_points_succ]
    simp [ih, Nat.mul_succ]

lemma make_points_label (points : Nat) :
    ∀ timeslices : Nat, ∀ pl ∈ make_points points timeslices,
      pl.label = pl.radius := by
  intro timeslices
  induction timeslices with
  | zero => intro pl hpl; simp [make_points] at hpl
  | succ m ih =>
    intro pl hpl
    rw [make_points_succ] at hpl
    rcases List.mem_append.mp hpl with hm | hm
    · exact ih pl hm
    · rw [List.eq_of_mem_replicate hm]

/-- C8: the point-generation stage produces, slice by slice, exactly
`points_per_slice = (simplices / timeslices) * 4` entries of radius
`1 + i` for each timeslice index `i`, each carrying the time value
`1 + i` (the truncated value of the radius), so the combined collection
has `points_per_slice * timeslices` entries and every entry's label
equals its radius; a sphere sampled with `count = 0` appends nothing. -/
theorem C8_point_generation (simplices timeslices : Nat) :
    (make_points (simplices / timeslices * 4) timeslices
        = ((List.range timeslices).map
            (fun i => List.replicate (simplices / timeslices * 4)
              (⟨1 + i, 1 + i⟩ : PtLabel))).flatten)
    ∧ ((make_points (simplices / timeslices * 4) timeslices).length
        = simplices / timeslices * 4 * timeslices)
    ∧ (∀ pl ∈ make_points (simplices / timeslices * 4) timeslices,
        pl.label = pl.radius)
    ∧ (∀ (vertices : List PtLabel) (radius : Nat),
        make_2_sphere vertices 0 radius = vertices) := by
  refine ⟨make_points_eq _ timeslices, make_points_length _ timeslices,
    make_points_label _ timeslices, ?_⟩
  intro vertices radius
  simp [make_2_sphere]

/-- Witness for C8: concrete entries of the collection generated for
`simplices = 8`, `timeslices = 2`, and an empty sphere sample. -/
theorem C8_point_generation_witness :
    (⟨1, 1⟩ : PtLabel).label = (⟨1, 1⟩ : PtLabel).radius
    ∧ make_2_sphere [] 0 5 = [] := by
  refine ⟨?_, (C8_point_generation 8 2).2.2.2 [] 5⟩
  exact (C8_point_generation 8 2).2.2.1 ⟨1, 1⟩ (by decide)
